import Mathlib

/-!
Verification of the go-clockify client library.

The Go source (a single package `clockify`) is shallowly embedded below.
Pure data (structs, paths, URL encoding, header construction) is translated
directly; the effectful parts (the HTTP transport, the JSON codec of the Go
standard library, and the wall clock) are threaded explicitly through an
`Env` record so that every operation is a total Lean function of its inputs.
A Go function that can panic is modelled with the `GoResult` wrapper whose
`panicked` constructor marks a runtime crash (nil-pointer dereference).
-/

namespace Clockify

/-- Base URL of the Clockify REST API (constant `ClockifyAPI` in the source). -/
def ClockifyAPI : String := "https://api.clockify.me/api/v1"

/-- Default application name (constant `DefaultAppName` in the source). -/
def DefaultAppName : String := "go-clockify"

/-- Structure `Session` represents an active connection; it holds only the API token. -/
structure Session where
  APIToken : String
deriving DecidableEq

/-- Function `OpenSession` opens a session using an existing API token. -/
def OpenSession (apiToken : String) : Session :=
  { APIToken := apiToken }

/-- Structure `AccountSettings` mirrors the account settings JSON object. -/
structure AccountSettings where
  WeekStart : String
  TimeZone : String
  TimeFormat : String
  DateFormat : String
deriving DecidableEq

/-- Structure `Workspace` mirrors the workspace JSON object. -/
structure Workspace where
  ID : String
  RoundingMinutes : Int
  Name : String
deriving DecidableEq

/-- Structure `Client` mirrors the client JSON object. -/
structure Client where
  Wid : String
  ID : Int
  Name : String
deriving DecidableEq

/-- Structure `Project` mirrors the project JSON object.  Note the `Active` field is
declared in the source with the struct tag `json:"archived"`. -/
structure Project where
  Wid : String
  ID : String
  Name : String
  Active : Bool
  Billable : Bool
deriving DecidableEq

/-- Method `IsActive` indicates whether a project exists and is active; it returns
the `Active` field unchanged. -/
def Project.IsActive (p : Project) : Bool :=
  p.Active

/-- Structure `Task` mirrors the task JSON object. -/
structure Task where
  Pid : String
  ID : String
  Name : String
deriving DecidableEq

/-- Structure `Tag` mirrors the tag JSON object. -/
structure Tag where
  Wid : String
  ID : String
  Name : String
deriving DecidableEq

/-- Structure `TimeInterval` mirrors the time interval JSON object; the two `*time.Time`
pointers are modelled as optional timestamp strings. -/
structure TimeInterval where
  Duration : String
  Stop : Option String
  Start : Option String
deriving DecidableEq

/-- Structure `TimeEntry` represents a single time entry (read shape). -/
structure TimeEntry where
  Wid : String
  ID : String
  Pid : String
  Tid : String
  Description : String
  TimeInterval : TimeInterval
  Tags : List String
  Billable : Bool
deriving DecidableEq

/-- Structure `TimeEntryRequest` represents a single time entry request (write shape). -/
structure TimeEntryRequest where
  Start : String
  Pid : String
  Tid : String
  Description : String
  End : String
  Tags : List String
  Billable : Bool
deriving DecidableEq

/-- Structure `Account` represents a user account. -/
structure Account where
  ID : String
  Name : String
  Email : String
  Workspaces : List Workspace
  Clients : List Client
  Projects : List Project
  Tasks : List Task
  Tags : List Tag
  TimeEntries : List TimeEntry
  Settings : AccountSettings
deriving DecidableEq

/-- The Go zero value of `TimeEntry` (what `TimeEntry\x7b\x7d` denotes). -/
def TimeEntry.zero : TimeEntry :=
  { Wid := "", ID := "", Pid := "", Tid := "", Description := ""
    TimeInterval := { Duration := "", Stop := none, Start := none }
    Tags := [], Billable := false }

/-- The Go zero value of `Account`. -/
def Account.zero : Account :=
  { ID := "", Name := "", Email := "", Workspaces := [], Clients := []
    Projects := [], Tasks := [], Tags := [], TimeEntries := []
    Settings := { WeekStart := "", TimeZone := "", TimeFormat := "", DateFormat := "" } }

/-! ## The fragment of Go `fmt.Sprintf` used by the package

Every live `fmt.Sprintf` call in the source uses only the `%s` verb (or no
verb at all).  The model below reproduces, for string operands, the
documented behaviour of the Go formatter: `%s` consumes the next operand;
a `%s` without an operand prints `%!s(MISSING)`; operands left over after
the whole format has been processed are appended as
`%!(EXTRA string=v1, string=v2, ...)`.  Verbs other than `s` do not occur
in the formats of this repository. -/

/-- Rendering of the leftover-operand list of the Go `%!(EXTRA ...)` suffix. -/
def extraArgs : List String → String
  | [] => ""
  | [a] => "string=" ++ a
  | a :: rest => "string=" ++ a ++ ", " ++ extraArgs rest

/-- Core of the `fmt.Sprintf` model, over the character list of the format. -/
def goFmt : List Char → List String → String
  | [], [] => ""
  | [], a :: rest => "%!(EXTRA " ++ extraArgs (a :: rest) ++ ")"
  | c :: cs, args =>
    if c = '%' then
      match cs, args with
      | 's' :: cs2, a :: rest => a ++ goFmt cs2 rest
      | 's' :: cs2, [] => "%!s(MISSING)" ++ goFmt cs2 []
      | cs2, args2 => "%" ++ goFmt cs2 args2
    else String.singleton c ++ goFmt cs args

/-- Model of `fmt.Sprintf` for string operands. -/
def sprintfS (format : String) (args : List String) : String :=
  goFmt format.data args

/-! ## Go `net/url` query escaping and encoding

`url.QueryEscape` works on the bytes of the string: ASCII letters, digits
and `-_.~` are kept, a space becomes `+`, and every other byte becomes
`%XX` with uppercase hexadecimal digits. -/

/-- UTF-8 bytes of a string. -/
def utf8Bytes (s : String) : List UInt8 :=
  (s.data.map String.utf8EncodeChar).flatten

/-- Bytes that `url.QueryEscape` leaves unescaped (other than space). -/
def isUnreservedByte (b : UInt8) : Bool :=
  (65 ≤ b.toNat && b.toNat ≤ 90) || (97 ≤ b.toNat && b.toNat ≤ 122) ||
    (48 ≤ b.toNat && b.toNat ≤ 57) ||
    b.toNat == 45 || b.toNat == 95 || b.toNat == 46 || b.toNat == 126

/-- Uppercase hexadecimal digit. -/
def hexDigit (n : Nat) : Char :=
  if n < 10 then Char.ofNat (48 + n) else Char.ofNat (55 + n)

/-- Escaping of one byte under `url.QueryEscape`. -/
def escapeByte (b : UInt8) : String :=
  if b.toNat == 32 then "+"
  else if isUnreservedByte b then String.singleton (Char.ofNat b.toNat)
  else "%" ++ String.singleton (hexDigit (b.toNat / 16)) ++ String.singleton (hexDigit (b.toNat % 16))

/-- Model of `url.QueryEscape`. -/
def queryEscape (s : String) : String :=
  String.join ((utf8Bytes s).map escapeByte)

/-- Byte-lexicographic comparison of two character lists (Go compares the
UTF-8 bytes of strings; UTF-8 order coincides with code point order). -/
def listCharLeb : List Char → List Char → Bool
  | [], _ => true
  | _ :: _, [] => false
  | a :: as, b :: bs =>
    if a.toNat < b.toNat then true
    else if b.toNat < a.toNat then false
    else listCharLeb as bs

/-- The Go `<=` on strings (used by `sort.Strings` inside `url.Values.Encode`). -/
def strLeb (a b : String) : Bool :=
  listCharLeb a.data b.data

/-- A query-parameter map snapshot.  A Go `map[string]string` is modelled by
its iteration sequence: an association list whose keys are pairwise
distinct. -/
abbrev Params := List (String × String)

/-- The sorted key list built by `url.Values.Encode` (`sort.Strings(keys)`). -/
def sortedKeys (ps : Params) : List String :=
  List.insertionSort (fun a b => strLeb a b = true) (ps.map Prod.fst)

/-- The `k=v` components of the encoded query string, in sorted key order,
each side escaped with `url.QueryEscape`. -/
def encodedPairs (ps : Params) : List String :=
  (sortedKeys ps).map fun k => queryEscape k ++ "=" ++ queryEscape ((ps.lookup k).getD "")

/-- Model of `url.Values.Encode` for values built by one `Set` per map entry. -/
def urlValuesEncode (ps : Params) : String :=
  String.intercalate "&" (encodedPairs ps)

/-! ## Transport layer -/

/-- An HTTP request as built by `http.NewRequest` plus the header additions
performed in `Session.request`. -/
structure HttpRequest where
  method : String
  url : String
  headers : List (String × String)
  body : Option String
deriving DecidableEq

/-- An HTTP response as observed by `Session.request`: the numeric code, the
status line `resp.Status`, the fully read body, and a possible
`ioutil.ReadAll` failure. -/
structure HttpResponse where
  statusCode : Int
  status : String
  body : String
  bodyReadErr : Option String
deriving DecidableEq

/-- The Go `error` values produced by this package, distinguished by
provenance: transport errors from `client.Do` or `ioutil.ReadAll`, status
errors from `fmt.Errorf(resp.Status)`, marshal errors from `json.Marshal`,
decode errors from `json.Unmarshal` / `json.Decoder.Decode`. -/
inductive GoError where
  | network : String → GoError
  | status : String → GoError
  | marshal : String → GoError
  | decode : String → GoError
deriving DecidableEq

/-- Result of a Go computation that may crash the process: `panicked` marks a
runtime panic (here, a nil-pointer dereference). -/
inductive GoResult (α : Type) where
  | panicked : GoResult α
  | value : α → GoResult α
deriving DecidableEq

/-- The external world an operation runs against: whether `http.NewRequest`
accepts the URL, the HTTP transport (`client.Do` plus body read), the
standard-library JSON codec, and the current wall-clock time already
rendered by `time.Now().UTC().Format(time.RFC3339)`.  The JSON functions
take the value being decoded into and return its final state together with
an optional error, mirroring `json.Unmarshal(data, &target)`. -/
structure Env where
  parseURL : String → Bool
  transport : HttpRequest → Except String HttpResponse
  marshalTER : TimeEntryRequest → Except String String
  unmarshalTimeEntry : String → TimeEntry → TimeEntry × Option String
  unmarshalAccount : String → Account → Account × Option String
  unmarshalProjects : String → List Project → List Project × Option String
  nowRFC3339 : String

/-- Model of `net/url` URL parsing success: `http.NewRequest` fails exactly
when the raw URL contains an ASCII control character (byte below 32 or
byte 127), which is the relevant failure mode for URLs formed by this
package. -/
def goURLParses (u : String) : Bool :=
  !(u.data.any fun c => c.toNat < 32 || c.toNat == 127)

/-- The header list built inside `Session.request`: `X-Api-Key` is added when
the session token is non-empty, then `Content-Type: application/json` is
always added. -/
def requestHeaders (apiToken : String) : List (String × String) :=
  (if apiToken ≠ "" then [("X-Api-Key", apiToken)] else []) ++
    [("Content-Type", "application/json")]

/-- Processing of the transport outcome inside `Session.request`: a
`client.Do` error or a body-read error is returned with a nil byte slice; a
status outside [200,400) returns the read body together with
`fmt.Errorf(resp.Status)`; otherwise the body is returned without error. -/
def handleResponse (r : Except String HttpResponse) : Option String × Option GoError :=
  match r with
  | .error e => (none, some (.network e))
  | .ok resp =>
    match resp.bodyReadErr with
    | some e => (none, some (.network e))
    | none =>
      if resp.statusCode < 200 || 400 ≤ resp.statusCode then
        (some resp.body, some (.status (sprintfS resp.status [])))
      else
        (some resp.body, none)

/-- Model of `Session.request`.  The Go code ignores the error returned by
`http.NewRequest` and immediately calls `req.Header.Add` on the request
pointer; when `http.NewRequest` fails that pointer is nil, so the call
panics.  On a parsable URL the request, carrying `requestHeaders`, is
executed and the response handled by `handleResponse`. -/
def Session.request (s : Session) (env : Env) (method requestURL : String)
    (body : Option String) : GoResult (Option String × Option GoError) :=
  if env.parseURL requestURL then
    .value (handleResponse (env.transport
      { method := method, url := requestURL
        headers := requestHeaders s.APIToken, body := body }))
  else
    .panicked

/-- One diagnostic line of the package logger `dlog`, emitted only when the
log sink is enabled.  Lines are identified by their format string; the
interpolated payload is write-only and never read back by the code. -/
def logIf (logOn : Bool) (line : String) : List String :=
  if logOn then [line] else []

/-- Helper `get`: appends the path, appends the `?`-prefixed encoded query
parameters when the map is non-nil, and issues a GET with no body. -/
def Session.get (s : Session) (env : Env) (logOn : Bool) (requestURL path : String)
    (params : Option Params) : GoResult (Option String × Option GoError) × List String :=
  let fullURL :=
    match params with
    | none => requestURL ++ path
    | some ps => requestURL ++ path ++ "?" ++ urlValuesEncode ps
  (s.request env "GET" fullURL none, logIf logOn "GETing from URL: %s")

/-- Helper `post`: marshals the payload when non-nil (an absent payload
sends an empty body) and issues a POST. -/
def Session.post (s : Session) (env : Env) (logOn : Bool) (requestURL path : String)
    (data : Option TimeEntryRequest) : GoResult (Option String × Option GoError) × List String :=
  let fullURL := requestURL ++ path
  match data with
  | none =>
    (s.request env "POST" fullURL (some ""),
      logIf logOn "POSTing to URL: %s" ++ logIf logOn "data: %s")
  | some d =>
    match env.marshalTER d with
    | .error e => (.value (none, some (.marshal e)), [])
    | .ok body =>
      (s.request env "POST" fullURL (some body),
        logIf logOn "POSTing to URL: %s" ++ logIf logOn "data: %s")

/-- Helper `patch`: marshals the payload when non-nil and issues a PATCH. -/
def Session.patch (s : Session) (env : Env) (logOn : Bool) (requestURL path : String)
    (data : Option TimeEntryRequest) : GoResult (Option String × Option GoError) × List String :=
  let fullURL := requestURL ++ path
  match data with
  | none =>
    (s.request env "PATCH" fullURL (some ""), logIf logOn "PATCHing to URL %s: %s")
  | some d =>
    match env.marshalTER d with
    | .error e => (.value (none, some (.marshal e)), [])
    | .ok body =>
      (s.request env "PATCH" fullURL (some body), logIf logOn "PATCHing to URL %s: %s")

/-- Helper `delete`: issues a DELETE with no body. -/
def Session.delete (s : Session) (env : Env) (logOn : Bool) (requestURL path : String) :
    GoResult (Option String × Option GoError) × List String :=
  (s.request env "DELETE" (requestURL ++ path) none, logIf logOn "DELETINGing URL: %s")

/-- Model of `requestTimeEntry`: returns the zero entry with the incoming error when
one is present; otherwise unmarshals the body into a `TimeEntry`, logs, and
returns either the decode error (with the zero entry) or the entry. -/
def requestTimeEntryL (env : Env) (logOn : Bool) (data : Option String)
    (err : Option GoError) : (TimeEntry × Option GoError) × List String :=
  match err with
  | some e => ((TimeEntry.zero, some e), [])
  | none =>
    let r := env.unmarshalTimeEntry (data.getD "") TimeEntry.zero
    let ls := logIf logOn "Unmarshaled %s into %v"
    match r.2 with
    | some e => ((TimeEntry.zero, some (.decode e)), ls)
    | none => ((r.1, none), ls)

/-- Operation `GetAccount`: GET `/user`, then decode into an `Account`; the value left
by the decoder is returned together with any decode error. -/
def Session.getAccount (s : Session) (env : Env) (logOn : Bool) :
    GoResult (Account × Option GoError) × List String :=
  match s.get env logOn ClockifyAPI "/user" none with
  | (.panicked, ls) => (.panicked, ls)
  | (.value (_, some e), ls) => (.value (Account.zero, some e), ls)
  | (.value (data, none), ls) =>
    let r := env.unmarshalAccount (data.getD "") Account.zero
    (.value (r.1, r.2.map .decode), ls)

/-- Operation `StartTimeEntry`: POST the given request to
`/workspaces/%s/time-entries`. -/
def Session.startTimeEntry (s : Session) (env : Env) (logOn : Bool)
    (workspaceID : String) (timeEntryRequest : TimeEntryRequest) :
    GoResult (TimeEntry × Option GoError) × List String :=
  let path := sprintfS "/workspaces/%s/time-entries" [workspaceID]
  match s.post env logOn ClockifyAPI path (some timeEntryRequest) with
  | (.panicked, ls) => (.panicked, ls)
  | (.value (data, err), ls) =>
    let r := requestTimeEntryL env logOn data err
    (.value r.1, ls ++ r.2)

/-- Operation `GetTimeEntry`: GET `/workspaces/%s/time-entries/%s`; on a transport
error the zero entry is returned early, otherwise the body is decoded. -/
def Session.getTimeEntry (s : Session) (env : Env) (logOn : Bool)
    (workspaceID timeEntryID : String) :
    GoResult (TimeEntry × Option GoError) × List String :=
  let path := sprintfS "/workspaces/%s/time-entries/%s" [workspaceID, timeEntryID]
  match s.get env logOn ClockifyAPI path none with
  | (.panicked, ls) => (.panicked, ls)
  | (.value (_, some e), ls) => (.value (TimeEntry.zero, some e), ls)
  | (.value (data, none), ls) =>
    let r := requestTimeEntryL env logOn data none
    (.value r.1, ls ++ r.2)

/-- Operation `DeleteTimeEntry`: DELETE `/workspaces/%s/time-entries/%s`, returning the
raw response bytes. -/
def Session.deleteTimeEntry (s : Session) (env : Env) (logOn : Bool)
    (workspaceID timeEntryID : String) :
    GoResult (Option String × Option GoError) × List String :=
  let l1 := logIf logOn "Deleting time entry %v"
  let path := sprintfS "/workspaces/%s/time-entries/%s" [workspaceID, timeEntryID]
  let r := s.delete env logOn ClockifyAPI path
  (r.1, l1 ++ r.2)

/-- Operation `ContinueTimeEntry`: builds a fresh `TimeEntryRequest` whose start is the
current UTC time in RFC3339 and whose project, task, description, tags and
billable flag are copied from the source entry, then POSTs it to
`/workspaces/%s/time-entries` with the workspace id of the source entry.  The
`duronly` parameter is unused by the source. -/
def Session.continueTimeEntry (s : Session) (env : Env) (logOn : Bool)
    (timer : TimeEntry) (_duronly : Bool) :
    GoResult (TimeEntry × Option GoError) × List String :=
  let l1 := logIf logOn "Continuing timer %v"
  let timeEntryRequest : TimeEntryRequest :=
    { Start := env.nowRFC3339, Pid := timer.Pid, Tid := timer.Tid
      Description := timer.Description, End := "", Tags := timer.Tags
      Billable := timer.Billable }
  let path := sprintfS "/workspaces/%s/time-entries" [timer.Wid]
  match s.post env logOn ClockifyAPI path (some timeEntryRequest) with
  | (.panicked, ls) => (.panicked, l1 ++ ls)
  | (.value (data, err), ls) =>
    let r := requestTimeEntryL env logOn data err
    (.value r.1, l1 ++ ls ++ r.2)

/-- The path built by `StopTimeEntry`:
`fmt.Sprintf` applied to a format that contains no verbs but is given the
two ids as operands. -/
def stopTimeEntryPath (workspaceID userID : String) : String :=
  sprintfS "/workspaces/\x7bworkspaceId\x7d/user/\x7buserId\x7d/time-entries" [workspaceID, userID]

/-- Operation `StopTimeEntry`: PATCHes a `TimeEntryRequest` whose end is the current
UTC time in RFC3339 to the path built by `stopTimeEntryPath`. -/
def Session.stopTimeEntry (s : Session) (env : Env) (logOn : Bool)
    (workspaceID userID : String) :
    GoResult (TimeEntry × Option GoError) × List String :=
  let l1 := logIf logOn "Stopping timer to user %s"
  let path := stopTimeEntryPath workspaceID userID
  let ter : TimeEntryRequest :=
    { Start := "", Pid := "", Tid := "", Description := "", End := env.nowRFC3339
      Tags := [], Billable := false }
  match s.patch env logOn ClockifyAPI path (some ter) with
  | (.panicked, ls) => (.panicked, l1 ++ ls)
  | (.value (data, err), ls) =>
    let r := requestTimeEntryL env logOn data err
    (.value r.1, l1 ++ ls ++ r.2)

/-- Operation `GetProjects`: GET `/workspaces/%s/projects` and unmarshal the body into
a project list; the list left by the decoder is returned together with any
decode error. -/
def Session.getProjects (s : Session) (env : Env) (logOn : Bool)
    (workspaceID : String) :
    GoResult (List Project × Option GoError) × List String :=
  let l1 := logIf logOn "Getting projects for workspace %s"
  let path := sprintfS "/workspaces/%s/projects" [workspaceID]
  match s.get env logOn ClockifyAPI path none with
  | (.panicked, ls) => (.panicked, l1 ++ ls)
  | (.value (_, some e), ls) => (.value ([], some e), l1 ++ ls)
  | (.value (data, none), ls) =>
    let r := env.unmarshalProjects (data.getD "") []
    let ls2 := logIf logOn "Unmarshaled %s into %v"
    (.value (r.1, r.2.map .decode), l1 ++ ls ++ ls2)

/-- Function `DisableLog` routes the logger output to `ioutil.Discard`; as a state
transition on the sink it yields the disabled state. -/
def DisableLog (_st : Bool) : Bool := false

/-- Function `EnableLog` routes the logger output back to standard error; as a state
transition on the sink it yields the enabled state. -/
def EnableLog (_st : Bool) : Bool := true

/-! ## JSON field assignment for `Project`

`encoding/json` matches an incoming object key against the struct tags of
`Project`, preferring an exact match and otherwise accepting an
ASCII-case-insensitive match; an unmatched key is ignored and a value of
the wrong type leaves the field unchanged.  The tags, from the source, are
`workspaceId`, `id`, `name`, `archived` (for the `Active` field) and
`billable`. -/

/-- A decoded JSON value, as far as `Project` fields need. -/
inductive JValue where
  | jstr : String → JValue
  | jbool : Bool → JValue
  | jnull : JValue
deriving DecidableEq

/-- ASCII lowering of one character (case folding relevant to the ASCII
struct tags of `Project`). -/
def asciiLowerChar (c : Char) : Char :=
  if 65 ≤ c.toNat ∧ c.toNat ≤ 90 then Char.ofNat (c.toNat + 32) else c

/-- ASCII lowering of a string. -/
def asciiLower (s : String) : String :=
  ⟨s.data.map asciiLowerChar⟩

/-- Key matching of `encoding/json`: exact, else ASCII-case-insensitive. -/
def jsonKeyMatches (key tag : String) : Bool :=
  key == tag || asciiLower key == asciiLower tag

/-- Assignment of one JSON object member to a `Project`, following the
struct tags declared in the source. -/
def decodeProjectField (p : Project) (key : String) (v : JValue) : Project :=
  if jsonKeyMatches key "workspaceId" then
    match v with | .jstr s => { p with Wid := s } | _ => p
  else if jsonKeyMatches key "id" then
    match v with | .jstr s => { p with ID := s } | _ => p
  else if jsonKeyMatches key "name" then
    match v with | .jstr s => { p with Name := s } | _ => p
  else if jsonKeyMatches key "archived" then
    match v with | .jbool b => { p with Active := b } | _ => p
  else if jsonKeyMatches key "billable" then
    match v with | .jbool b => { p with Billable := b } | _ => p
  else p

/-- Decoding of a whole JSON object into a `Project`, member by member. -/
def decodeProject (obj : List (String × JValue)) : Project :=
  obj.foldl (fun p kv => decodeProjectField p kv.1 kv.2)
    { Wid := "", ID := "", Name := "", Active := false, Billable := false }

/-! ## Spec-side descriptions (for refinement statements) -/

/-- Modelled from the spec: the request `ContinueTimeEntry` is supposed to
build — project, task, description, tags and billable copied from the
source entry, start set to the current UTC time. -/
def continueSpecRequest (env : Env) (timer : TimeEntry) : TimeEntryRequest :=
  { Start := env.nowRFC3339, Pid := timer.Pid, Tid := timer.Tid
    Description := timer.Description, End := "", Tags := timer.Tags
    Billable := timer.Billable }

/-- Modelled from the spec: the request `StopTimeEntry` sends — only the end
time is set, to the current UTC time. -/
def stopSpecRequest (env : Env) : TimeEntryRequest :=
  { Start := "", Pid := "", Tid := "", Description := "", End := env.nowRFC3339
    Tags := [], Billable := false }

/-! ## Concrete environments for witnesses -/

/-- A concrete environment whose transport always fails with a network
error. -/
def baseEnv : Env :=
  { parseURL := fun _ => true
    transport := fun _ => Except.error "connection refused"
    marshalTER := fun _ => .ok "payload"
    unmarshalTimeEntry := fun _ t => (t, none)
    unmarshalAccount := fun _ a => (a, none)
    unmarshalProjects := fun _ l => (l, none)
    nowRFC3339 := "2026-10-11T00:00:00Z" }

/-- A concrete 404 response. -/
def resp404 : HttpResponse :=
  { statusCode := 404, status := "404 Not Found", body := "missing", bodyReadErr := none }

/-- A concrete environment whose transport returns the 404 response. -/
def env404 : Env :=
  { baseEnv with transport := fun _ => Except.ok resp404 }

/-- A concrete 200 response with a body the account decoder rejects. -/
def resp200 : HttpResponse :=
  { statusCode := 200, status := "200 OK", body := "notjson", bodyReadErr := none }

/-- A concrete environment where the 200 body fails to decode as an
account. -/
def envBadJson : Env :=
  { baseEnv with
    transport := fun _ => Except.ok resp200
    unmarshalAccount := fun _ a => (a, some "invalid character") }

/-- A concrete source time entry. -/
def timerW : TimeEntry :=
  { Wid := "W1", ID := "E1", Pid := "P1", Tid := "T1", Description := "work"
    TimeInterval := { Duration := "PT1H", Stop := none, Start := none }
    Tags := ["t1"], Billable := true }


/-! ## Helper lemmas -/

/-- Characters with equal code points are equal. -/
theorem charToNat_inj {a b : Char} (h : a.toNat = b.toNat) : a = b := by
  rw [← Char.ofNat_toNat a, ← Char.ofNat_toNat b, h]

/-- The byte-lexicographic comparison is total. -/
theorem listCharLeb_total : ∀ as bs : List Char,
    listCharLeb as bs = true ∨ listCharLeb bs as = true := by
  intro as
  induction as with
  | nil => intro bs; left; rfl
  | cons a as ih =>
    intro bs
    cases bs with
    | nil => right; rfl
    | cons b bs =>
      rcases Nat.lt_trichotomy a.toNat b.toNat with h | h | h
      · left; simp [listCharLeb, h]
      · rcases ih bs with h2 | h2
        · left; simp [listCharLeb, h, Nat.lt_irrefl, h2]
        · right; simp [listCharLeb, h.symm, Nat.lt_irrefl, h2]
      · right; simp [listCharLeb, h]

/-- The byte-lexicographic comparison is transitive. -/
theorem listCharLeb_trans : ∀ as bs cs : List Char,
    listCharLeb as bs = true → listCharLeb bs cs = true → listCharLeb as cs = true := by
  intro as
  induction as with
  | nil => intro bs cs _ _; rfl
  | cons a as ih =>
    intro bs cs hab hbc
    cases bs with
    | nil => simp [listCharLeb] at hab
    | cons b bs =>
      cases cs with
      | nil => simp [listCharLeb] at hbc
      | cons c cs =>
        simp only [listCharLeb] at hab hbc ⊢
        rcases Nat.lt_trichotomy a.toNat b.toNat with h1 | h1 | h1
        · rcases Nat.lt_trichotomy b.toNat c.toNat with h2 | h2 | h2
          · simp [Nat.lt_trans h1 h2]
          · simp [show a.toNat < c.toNat from h2 ▸ h1]
          · simp [Nat.lt_asymm h2, h2] at hbc
        · rcases Nat.lt_trichotomy b.toNat c.toNat with h2 | h2 | h2
          · simp [show a.toNat < c.toNat from h1 ▸ h2]
          · have hac : a.toNat = c.toNat := h1.trans h2
            simp only [h1, Nat.lt_irrefl, if_false] at hab
            simp only [h2, Nat.lt_irrefl, if_false] at hbc
            simp [hac, Nat.lt_irrefl]
            exact ih bs cs hab hbc
          · simp [Nat.lt_asymm h2, h2] at hbc
        · simp [Nat.lt_asymm h1, h1] at hab

/-- The byte-lexicographic comparison is antisymmetric. -/
theorem listCharLeb_antisymm : ∀ as bs : List Char,
    listCharLeb as bs = true → listCharLeb bs as = true → as = bs := by
  intro as
  induction as with
  | nil =>
    intro bs _ hba
    cases bs with
    | nil => rfl
    | cons b bs => simp [listCharLeb] at hba
  | cons a as ih =>
    intro bs hab hba
    cases bs with
    | nil => simp [listCharLeb] at hab
    | cons b bs =>
      simp only [listCharLeb] at hab hba
      rcases Nat.lt_trichotomy a.toNat b.toNat with h1 | h1 | h1
      · simp [Nat.lt_asymm h1, h1] at hba
      · simp only [h1, Nat.lt_irrefl, if_false] at hab hba
        rw [charToNat_inj h1, ih bs hab hba]
      · simp [Nat.lt_asymm h1, h1] at hab

instance strLebTotal : IsTotal String (fun a b => strLeb a b = true) :=
  ⟨fun a b => listCharLeb_total a.data b.data⟩

instance strLebTrans : IsTrans String (fun a b => strLeb a b = true) :=
  ⟨fun a b c => listCharLeb_trans a.data b.data c.data⟩

instance strLebAntisymm : IsAntisymm String (fun a b => strLeb a b = true) :=
  ⟨fun a b hab hba => String.ext (listCharLeb_antisymm a.data b.data hab hba)⟩

/-- The key list produced by the encoder is sorted. -/
theorem sortedKeys_sorted (ps : Params) :
    List.Sorted (fun a b => strLeb a b = true) (sortedKeys ps) :=
  List.sorted_insertionSort _ _

/-- The key list produced by the encoder is a permutation of the map keys. -/
theorem sortedKeys_perm (ps : Params) : (sortedKeys ps).Perm (ps.map Prod.fst) :=
  List.perm_insertionSort _ _

/-- Two iteration orders of the same map sort to the same key list. -/
theorem sortedKeys_congr {ps qs : Params} (h : ps.Perm qs) :
    sortedKeys ps = sortedKeys qs :=
  List.eq_of_perm_of_sorted
    ((sortedKeys_perm ps).trans ((h.map Prod.fst).trans (sortedKeys_perm qs).symm))
    (sortedKeys_sorted ps) (sortedKeys_sorted qs)

/-- Association-list lookup of a present key, under distinct keys. -/
theorem lookup_eq_some_of_mem : ∀ (ps : Params) (k v : String),
    (ps.map Prod.fst).Nodup → (k, v) ∈ ps → ps.lookup k = some v := by
  intro ps
  induction ps with
  | nil => intro k v _ hm; simp at hm
  | cons p t ih =>
    intro k v hnd hm
    obtain ⟨a, b⟩ := p
    rw [List.map_cons, List.nodup_cons] at hnd
    rcases List.mem_cons.mp hm with heq | hmem
    · rw [Prod.mk.injEq] at heq
      obtain ⟨rfl, rfl⟩ := heq
      simp [List.lookup]
    · have hka : k ≠ a := by
        rintro rfl
        exact hnd.1 (List.mem_map.mpr ⟨(k, v), hmem, rfl⟩)
      simp only [List.lookup, beq_eq_false_iff_ne.mpr hka]
      exact ih k v hnd.2 hmem

/-- Two iteration orders of the same map encode to the same component list. -/
theorem encodedPairs_congr {ps qs : Params} (h : ps.Perm qs)
    (hnd : (ps.map Prod.fst).Nodup) : encodedPairs ps = encodedPairs qs := by
  have hndq : (qs.map Prod.fst).Nodup := ((h.map Prod.fst).nodup_iff).mp hnd
  unfold encodedPairs
  rw [sortedKeys_congr h]
  apply List.map_congr_left
  intro k hk
  have hk2 : k ∈ qs.map Prod.fst := (sortedKeys_perm qs).subset hk
  obtain ⟨⟨k2, v⟩, hmem, hfst⟩ := List.mem_map.mp hk2
  cases hfst
  rw [lookup_eq_some_of_mem qs k2 v hndq hmem,
    lookup_eq_some_of_mem ps k2 v hnd (h.mem_iff.mpr hmem)]

/-- Unfolding of the formatter over an ordinary character. -/
theorem goFmt_cons (c : Char) (cs : List Char) (args : List String) (hc : c ≠ '%') :
    goFmt (c :: cs) args = String.singleton c ++ goFmt cs args := by
  conv_lhs => rw [goFmt.eq_def]
  simp only [if_neg hc]

/-- A verb-free format renders to itself followed by the leftover-operand
suffix. -/
theorem goFmt_nopct : ∀ (cs : List Char) (args : List String),
    (∀ c ∈ cs, c ≠ '%') → goFmt cs args = String.mk cs ++ goFmt [] args := by
  intro cs
  induction cs with
  | nil => intro args _; rfl
  | cons c cs ih =>
    intro args h
    rw [goFmt_cons c cs args (h c (List.mem_cons_self c cs)),
      ih args (fun x hx => h x (List.mem_cons_of_mem c hx)), ← String.append_assoc]
    rfl

/-- Closed form of the path built by `StopTimeEntry`: the verb-free template
followed by the too-many-operands diagnostic of the Go formatter. -/
theorem stop_path_eq (w u : String) :
    stopTimeEntryPath w u =
      "/workspaces/\x7bworkspaceId\x7d/user/\x7buserId\x7d/time-entries%!(EXTRA string=" ++
        w ++ ", string=" ++ u ++ ")" := by
  have he : goFmt [] [w, u] = "%!(EXTRA " ++ extraArgs [w, u] ++ ")" := rfl
  have hext : extraArgs [w, u] = "string=" ++ w ++ ", " ++ ("string=" ++ u) := rfl
  have hT : ("/workspaces/\x7bworkspaceId\x7d/user/\x7buserId\x7d/time-entries%!(EXTRA string=" : String) =
      "/workspaces/\x7bworkspaceId\x7d/user/\x7buserId\x7d/time-entries" ++ "%!(EXTRA " ++ "string=" := by
    decide
  have hc : (", string=" : String) = ", " ++ "string=" := by decide
  unfold stopTimeEntryPath sprintfS
  rw [goFmt_nopct _ _ (by decide), he, hext, hT, hc]
  simp only [String.append_assoc]

/-- On a parsable URL, `Session.request` delivers exactly one request, with
`requestHeaders`, to the transport and post-processes with
`handleResponse`. -/
theorem request_parse_ok {s : Session} {env : Env} {m u : String} {b : Option String}
    (hp : env.parseURL u = true) :
    s.request env m u b = .value (handleResponse (env.transport
      { method := m, url := u, headers := requestHeaders s.APIToken, body := b })) := by
  unfold Session.request
  rw [hp]
  rfl

/-- Unfolding of `Session.post` on a payload that marshals successfully. -/
theorem post_marshal_ok {s : Session} {env : Env} {logOn : Bool} {u p : String}
    {d : TimeEntryRequest} {b : String} (hm : env.marshalTER d = .ok b) :
    s.post env logOn u p (some d) =
      (s.request env "POST" (u ++ p) (some b),
        logIf logOn "POSTing to URL: %s" ++ logIf logOn "data: %s") := by
  unfold Session.post
  dsimp only
  rw [hm]

/-- Unfolding of `Session.patch` on a payload that marshals successfully. -/
theorem patch_marshal_ok {s : Session} {env : Env} {logOn : Bool} {u p : String}
    {d : TimeEntryRequest} {b : String} (hm : env.marshalTER d = .ok b) :
    s.patch env logOn u p (some d) =
      (s.request env "PATCH" (u ++ p) (some b), logIf logOn "PATCHing to URL %s: %s") := by
  unfold Session.patch
  dsimp only
  rw [hm]

/-- The result component of `requestTimeEntry` does not depend on the log
toggle. -/
theorem requestTimeEntryL_fst (env : Env) (a b : Bool) (data : Option String)
    (err : Option GoError) :
    (requestTimeEntryL env a data err).1 = (requestTimeEntryL env b data err).1 := by
  cases err with
  | some e => rfl
  | none =>
    simp only [requestTimeEntryL]
    cases h : (env.unmarshalTimeEntry (data.getD "") TimeEntry.zero).2 <;> simp [h]


/-- A verb-free format with no operands renders to itself. -/
theorem sprintfS_plain (t : String) (h : ∀ c ∈ t.data, c ≠ '%') : sprintfS t [] = t := by
  unfold sprintfS
  rw [goFmt_nopct _ _ h]
  apply String.ext
  simp only [String.data_append]
  show t.data ++ ([] : List Char) = t.data
  simp

/-- C1, counterexample: at workspaceID "w" and userID "u" the path built by
`StopTimeEntry` is not exactly the literal template
`/workspaces/\x7bworkspaceId\x7d/user/\x7buserId\x7d/time-entries`: the Go formatter
appends a `%!(EXTRA ...)` diagnostic carrying the two unused operands. -/
theorem c1_counterexample :
    stopTimeEntryPath "w" "u" ≠
      "/workspaces/\x7bworkspaceId\x7d/user/\x7buserId\x7d/time-entries" := by
  decide

/-- C1 (amended): for every workspaceID and userID, `StopTimeEntry` issues a
PATCH whose path starts with the literal template
`/workspaces/\x7bworkspaceId\x7d/user/\x7buserId\x7d/time-entries` — the placeholder
text is kept verbatim and the two arguments are not interpolated at the
placeholders — followed by the Go too-many-operands diagnostic
`%!(EXTRA string=<workspaceID>, string=<userID>)` which carries the two
arguments.  The second conjunct pins the delivered request: method PATCH,
URL equal to the API base plus that path, for any transport. -/
theorem c1_stop_patch_literal_path : ∀ w u : String,
    stopTimeEntryPath w u =
      "/workspaces/\x7bworkspaceId\x7d/user/\x7buserId\x7d/time-entries%!(EXTRA string=" ++
        w ++ ", string=" ++ u ++ ")"
    ∧ ∀ (s : Session) (env : Env) (lg : Bool) (b : String),
        env.marshalTER (stopSpecRequest env) = Except.ok b →
        env.parseURL (ClockifyAPI ++ stopTimeEntryPath w u) = true →
        (s.stopTimeEntry env lg w u).1 =
          .value (requestTimeEntryL env lg
            (handleResponse (env.transport
              { method := "PATCH", url := ClockifyAPI ++ stopTimeEntryPath w u
                headers := requestHeaders s.APIToken, body := some b })).1
            (handleResponse (env.transport
              { method := "PATCH", url := ClockifyAPI ++ stopTimeEntryPath w u
                headers := requestHeaders s.APIToken, body := some b })).2).1 := by
  intro w u
  refine ⟨stop_path_eq w u, ?_⟩
  intro s env lg b hm hp
  have hss : stopSpecRequest env =
      { Start := "", Pid := "", Tid := "", Description := "", End := env.nowRFC3339
        Tags := [], Billable := false } := rfl
  rw [hss] at hm
  unfold Session.stopTimeEntry
  dsimp only
  rw [patch_marshal_ok hm, request_parse_ok hp]


/-- C2: for every HTTP response with status outside [200,400), `request`
returns the fully read body together with an error carrying the status
line (`fmt.Errorf(resp.Status)`; the status line of an HTTP server holds
no `%`), and `requestTimeEntry` returns immediately on a non-nil error —
the zero entry and that same error, for every environment, so no JSON
decode of the body is attempted. -/
theorem c2_status_error_and_no_decode :
    (∀ (s : Session) (env : Env) (m u : String) (b : Option String) (resp : HttpResponse),
      env.parseURL u = true →
      env.transport { method := m, url := u, headers := requestHeaders s.APIToken, body := b } =
        Except.ok resp →
      resp.bodyReadErr = none →
      (resp.statusCode < 200 ∨ 400 ≤ resp.statusCode) →
      (∀ c ∈ resp.status.data, c ≠ '%') →
      s.request env m u b = .value (some resp.body, some (.status resp.status)))
    ∧ (∀ (env : Env) (lg : Bool) (data : Option String) (e : GoError),
        requestTimeEntryL env lg data (some e) = ((TimeEntry.zero, some e), [])) := by
  constructor
  · intro s env m u b resp hp ht hr hst hpc
    rw [request_parse_ok hp, ht]
    unfold handleResponse
    dsimp only
    rw [hr]
    dsimp only
    rw [sprintfS_plain resp.status hpc]
    rcases hst with h | h
    · simp [h]
    · have h2 : ¬ resp.statusCode < 200 := by omega
      simp [h, h2]
  · intro env lg data e
    rfl

/-- C4: the header list built by the transport helper always carries
`Content-Type: application/json`, and it carries an `X-Api-Key` header
holding exactly the session token if and only if the token is non-empty;
`request` hands exactly these headers to the transport. -/
theorem c4_json_and_api_key_headers :
    (∀ tok : String,
      ("Content-Type", "application/json") ∈ requestHeaders tok ∧
      ∀ v : String, (("X-Api-Key", v) ∈ requestHeaders tok ↔ tok ≠ "" ∧ v = tok))
    ∧ ∀ (s : Session) (env : Env) (m u : String) (b : Option String),
        env.parseURL u = true →
        s.request env m u b = .value (handleResponse (env.transport
          { method := m, url := u, headers := requestHeaders s.APIToken, body := b })) := by
  constructor
  · intro tok
    by_cases h : tok = ""
    · subst h
      refine ⟨by simp [requestHeaders], fun v => ?_⟩
      simp [requestHeaders]
    · refine ⟨by simp [requestHeaders, h], fun v => ?_⟩
      simp [requestHeaders, h]
  · intro s env m u b hp
    exact request_parse_ok hp

/-- C7, failing input: `GetProjects` with a workspaceID containing an ASCII
control character builds a URL that `http.NewRequest` rejects; the code
ignores that error and calls `req.Header.Add` on the nil request, so the
operation panics instead of returning an error — for every transport,
codec and token.  This contradicts the spec sentence that every failure
is a returned error value and never a crash. -/
theorem c7_nil_request_crash :
    ∀ (s : Session) (lg : Bool) (t : HttpRequest → Except String HttpResponse)
      (mr : TimeEntryRequest → Except String String)
      (ute : String → TimeEntry → TimeEntry × Option String)
      (ua : String → Account → Account × Option String)
      (up : String → List Project → List Project × Option String) (now : String),
      (s.getProjects
        { parseURL := goURLParses, transport := t, marshalTER := mr
          unmarshalTimeEntry := ute, unmarshalAccount := ua, unmarshalProjects := up
          nowRFC3339 := now } lg "\n").1 = .panicked
      ∧ goURLParses (ClockifyAPI ++ "/workspaces/\n/projects") = false := by
  intro s lg t mr ute ua up now
  exact ⟨rfl, by decide⟩

/-- C9: the `Active` field of a decoded `Project` is populated from the JSON
object field named "archived" (struct tag `json:"archived"`); a field
named "active" matches no struct tag and leaves `Active` unchanged; and
`IsActive` returns the `Active` field unchanged. -/
theorem c9_active_from_archived_tag :
    (∀ (p : Project) (b : Bool), (decodeProjectField p "archived" (JValue.jbool b)).Active = b)
    ∧ (∀ (p : Project) (v : JValue), (decodeProjectField p "active" v).Active = p.Active)
    ∧ (∀ p : Project, p.IsActive = p.Active) := by
  refine ⟨?_, ?_, fun p => rfl⟩
  · intro p b
    have h1 : jsonKeyMatches "archived" "workspaceId" = false := by decide
    have h2 : jsonKeyMatches "archived" "id" = false := by decide
    have h3 : jsonKeyMatches "archived" "name" = false := by decide
    have h4 : jsonKeyMatches "archived" "archived" = true := by decide
    simp [decodeProjectField, h1, h2, h3, h4]
  · intro p v
    have h1 : jsonKeyMatches "active" "workspaceId" = false := by decide
    have h2 : jsonKeyMatches "active" "id" = false := by decide
    have h3 : jsonKeyMatches "active" "name" = false := by decide
    have h4 : jsonKeyMatches "active" "archived" = false := by decide
    have h5 : jsonKeyMatches "active" "billable" = false := by decide
    simp [decodeProjectField, h1, h2, h3, h4, h5]


/-- C3: `ContinueTimeEntry` builds a fresh `TimeEntryRequest` whose project
id, task id, description, tag ids and billable flag are exactly those of
the source entry and whose start field is the current UTC time rendered
in RFC3339 (the clock reading `Env.nowRFC3339`), and POSTs its marshalled
form to `/workspaces/<wid>/time-entries` where `wid` is the workspace id
of the source entry — pinned for any transport. -/
theorem c3_continue_builds_and_posts :
    ∀ (s : Session) (env : Env) (lg : Bool) (timer : TimeEntry) (d : Bool) (b : String),
      env.marshalTER (continueSpecRequest env timer) = Except.ok b →
      env.parseURL (ClockifyAPI ++ ("/workspaces/" ++ timer.Wid ++ "/time-entries")) = true →
      ((continueSpecRequest env timer).Start = env.nowRFC3339
        ∧ (continueSpecRequest env timer).Pid = timer.Pid
        ∧ (continueSpecRequest env timer).Tid = timer.Tid
        ∧ (continueSpecRequest env timer).Description = timer.Description
        ∧ (continueSpecRequest env timer).Tags = timer.Tags
        ∧ (continueSpecRequest env timer).Billable = timer.Billable)
      ∧ (s.continueTimeEntry env lg timer d).1 =
          .value (requestTimeEntryL env lg
            (handleResponse (env.transport
              { method := "POST", url := ClockifyAPI ++ ("/workspaces/" ++ timer.Wid ++ "/time-entries")
                headers := requestHeaders s.APIToken, body := some b })).1
            (handleResponse (env.transport
              { method := "POST", url := ClockifyAPI ++ ("/workspaces/" ++ timer.Wid ++ "/time-entries")
                headers := requestHeaders s.APIToken, body := some b })).2).1 := by
  intro s env lg timer d b hm hp
  refine ⟨⟨rfl, rfl, rfl, rfl, rfl, rfl⟩, ?_⟩
  have hcs : continueSpecRequest env timer =
      { Start := env.nowRFC3339, Pid := timer.Pid, Tid := timer.Tid
        Description := timer.Description, End := "", Tags := timer.Tags
        Billable := timer.Billable } := rfl
  rw [hcs] at hm
  have hpath : sprintfS "/workspaces/%s/time-entries" [timer.Wid] =
      "/workspaces/" ++ timer.Wid ++ "/time-entries" := rfl
  unfold Session.continueTimeEntry
  dsimp only
  rw [hpath, post_marshal_ok hm, request_parse_ok hp]

/-- C5: the GET helper builds base URL plus path, then appends `?` and the
encoded query string when the parameter map is non-nil, and appends
nothing when the map is nil; for a map with distinct keys, every key
appears exactly once in the encoded component list, URL-encoded with
`url.QueryEscape` together with its value. -/
theorem c5_get_query_url :
    (∀ (s : Session) (env : Env) (lg : Bool) (base path : String) (ps : Params),
      (s.get env lg base path (some ps)).1 =
        s.request env "GET" (base ++ path ++ "?" ++ urlValuesEncode ps) none)
    ∧ (∀ (s : Session) (env : Env) (lg : Bool) (base path : String),
      (s.get env lg base path none).1 = s.request env "GET" (base ++ path) none)
    ∧ (∀ (ps : Params) (k v : String), (ps.map Prod.fst).Nodup → (k, v) ∈ ps →
        (queryEscape k ++ "=" ++ queryEscape v) ∈ encodedPairs ps
        ∧ (sortedKeys ps).count k = 1) := by
  refine ⟨fun s env lg base path ps => rfl, fun s env lg base path => rfl, ?_⟩
  intro ps k v hnd hmem
  have hk : k ∈ ps.map Prod.fst := List.mem_map.mpr ⟨(k, v), hmem, rfl⟩
  have hks : k ∈ sortedKeys ps := (sortedKeys_perm ps).mem_iff.mpr hk
  constructor
  · refine List.mem_map.mpr ⟨k, hks, ?_⟩
    rw [lookup_eq_some_of_mem ps k v hnd hmem]
    rfl
  · rw [(sortedKeys_perm ps).count_eq k]
    exact List.count_eq_one_of_mem hnd hk

/-- C6: when a 2xx response body fails to decode, the resource operation
returns a non-nil decode error rather than a zero value with a nil error:
`requestTimeEntry` wraps the unmarshal error, and `GetAccount` on a 2xx
response whose body the account decoder rejects returns the decoder error
alongside the value the decoder left. -/
theorem c6_decode_error_not_silent :
    (∀ (env : Env) (lg : Bool) (data : Option String) (e : String),
      (env.unmarshalTimeEntry (data.getD "") TimeEntry.zero).2 = some e →
      (requestTimeEntryL env lg data none).1 = (TimeEntry.zero, some (.decode e)))
    ∧ (∀ (s : Session) (env : Env) (lg : Bool) (resp : HttpResponse) (e : String),
        env.parseURL (ClockifyAPI ++ "/user") = true →
        env.transport
          { method := "GET", url := ClockifyAPI ++ "/user"
            headers := requestHeaders s.APIToken, body := none } = Except.ok resp →
        resp.bodyReadErr = none →
        200 ≤ resp.statusCode → resp.statusCode < 400 →
        (env.unmarshalAccount resp.body Account.zero).2 = some e →
        (s.getAccount env lg).1 =
          .value ((env.unmarshalAccount resp.body Account.zero).1, some (.decode e))) := by
  constructor
  · intro env lg data e he
    unfold requestTimeEntryL
    dsimp only
    rw [he]
  · intro s env lg resp e hp ht hr h200 h400 hua
    have h1 : ¬ resp.statusCode < 200 := by omega
    have h2 : ¬ 400 ≤ resp.statusCode := by omega
    unfold Session.getAccount Session.get
    dsimp only
    rw [request_parse_ok hp, ht]
    unfold handleResponse
    dsimp only
    rw [hr]
    simp only [decide_eq_false h1, decide_eq_false h2, Bool.or_self, Bool.false_eq_true,
      if_false, Option.getD_some]
    rw [hua]
    rfl

/-- C10: the encoded query string is deterministic across runs: two
iteration orders of the same parameter map (any permutation, keys
distinct) encode identically, the key list is sorted in lexicographic
(byte) order, and two `get` calls with equal base URL, path and map
contents build the same URL. -/
theorem c10_query_encoding_deterministic :
    ∀ ps qs : Params, ps.Perm qs → (ps.map Prod.fst).Nodup →
      urlValuesEncode ps = urlValuesEncode qs
      ∧ List.Sorted (fun a b => strLeb a b = true) (sortedKeys ps)
      ∧ ∀ (s : Session) (env : Env) (lg : Bool) (base path : String),
          s.get env lg base path (some ps) = s.get env lg base path (some qs) := by
  intro ps qs hperm hnd
  have henc : urlValuesEncode ps = urlValuesEncode qs := by
    unfold urlValuesEncode
    rw [encodedPairs_congr hperm hnd]
  refine ⟨henc, sortedKeys_sorted ps, fun s env lg base path => ?_⟩
  unfold Session.get
  dsimp only
  rw [henc]


/-- The result component of `StartTimeEntry` ignores the log toggle. -/
theorem startTimeEntry_fst (s : Session) (env : Env) (wid : String)
    (ter : TimeEntryRequest) (lg1 lg2 : Bool) :
    (s.startTimeEntry env lg1 wid ter).1 = (s.startTimeEntry env lg2 wid ter).1 := by
  unfold Session.startTimeEntry Session.post
  dsimp only
  cases hm : env.marshalTER ter with
  | error e => rfl
  | ok b =>
    dsimp only
    cases hr : s.request env "POST" (ClockifyAPI ++ sprintfS "/workspaces/%s/time-entries" [wid]) (some b) with
    | panicked => rfl
    | value pr =>
      obtain ⟨dd, ee⟩ := pr
      exact congrArg GoResult.value (requestTimeEntryL_fst env lg1 lg2 dd ee)

/-- The result component of `GetAccount` ignores the log toggle. -/
theorem getAccount_fst (s : Session) (env : Env) (lg1 lg2 : Bool) :
    (s.getAccount env lg1).1 = (s.getAccount env lg2).1 := by
  unfold Session.getAccount Session.get
  dsimp only
  cases hr : s.request env "GET" (ClockifyAPI ++ "/user") none with
  | panicked => rfl
  | value pr =>
    obtain ⟨dd, ee⟩ := pr
    cases ee <;> rfl

/-- The result component of `GetTimeEntry` ignores the log toggle. -/
theorem getTimeEntry_fst (s : Session) (env : Env) (wid eid : String) (lg1 lg2 : Bool) :
    (s.getTimeEntry env lg1 wid eid).1 = (s.getTimeEntry env lg2 wid eid).1 := by
  unfold Session.getTimeEntry Session.get
  dsimp only
  cases hr : s.request env "GET"
      (ClockifyAPI ++ sprintfS "/workspaces/%s/time-entries/%s" [wid, eid]) none with
  | panicked => rfl
  | value pr =>
    obtain ⟨dd, ee⟩ := pr
    cases ee with
    | some e => rfl
    | none => exact congrArg GoResult.value (requestTimeEntryL_fst env lg1 lg2 dd none)

/-- The result component of `DeleteTimeEntry` ignores the log toggle. -/
theorem deleteTimeEntry_fst (s : Session) (env : Env) (wid eid : String) (lg1 lg2 : Bool) :
    (s.deleteTimeEntry env lg1 wid eid).1 = (s.deleteTimeEntry env lg2 wid eid).1 := rfl

/-- The result component of `ContinueTimeEntry` ignores the log toggle. -/
theorem continueTimeEntry_fst (s : Session) (env : Env) (timer : TimeEntry) (d : Bool)
    (lg1 lg2 : Bool) :
    (s.continueTimeEntry env lg1 timer d).1 = (s.continueTimeEntry env lg2 timer d).1 := by
  unfold Session.continueTimeEntry Session.post
  dsimp only
  cases hm : env.marshalTER
      { Start := env.nowRFC3339, Pid := timer.Pid, Tid := timer.Tid
        Description := timer.Description, End := "", Tags := timer.Tags
        Billable := timer.Billable } with
  | error e => rfl
  | ok b =>
    dsimp only
    cases hr : s.request env "POST"
        (ClockifyAPI ++ sprintfS "/workspaces/%s/time-entries" [timer.Wid]) (some b) with
    | panicked => rfl
    | value pr =>
      obtain ⟨dd, ee⟩ := pr
      exact congrArg GoResult.value (requestTimeEntryL_fst env lg1 lg2 dd ee)

/-- The result component of `StopTimeEntry` ignores the log toggle. -/
theorem stopTimeEntry_fst (s : Session) (env : Env) (wid uid : String) (lg1 lg2 : Bool) :
    (s.stopTimeEntry env lg1 wid uid).1 = (s.stopTimeEntry env lg2 wid uid).1 := by
  unfold Session.stopTimeEntry Session.patch
  dsimp only
  cases hm : env.marshalTER
      { Start := "", Pid := "", Tid := "", Description := "", End := env.nowRFC3339
        Tags := [], Billable := false } with
  | error e => rfl
  | ok b =>
    dsimp only
    cases hr : s.request env "PATCH" (ClockifyAPI ++ stopTimeEntryPath wid uid) (some b) with
    | panicked => rfl
    | value pr =>
      obtain ⟨dd, ee⟩ := pr
      exact congrArg GoResult.value (requestTimeEntryL_fst env lg1 lg2 dd ee)

/-- The result component of `GetProjects` ignores the log toggle. -/
theorem getProjects_fst (s : Session) (env : Env) (wid : String) (lg1 lg2 : Bool) :
    (s.getProjects env lg1 wid).1 = (s.getProjects env lg2 wid).1 := by
  unfold Session.getProjects Session.get
  dsimp only
  cases hr : s.request env "GET" (ClockifyAPI ++ sprintfS "/workspaces/%s/projects" [wid]) none with
  | panicked => rfl
  | value pr =>
    obtain ⟨dd, ee⟩ := pr
    cases ee <;> rfl

/-- C8: for every operation, every environment and every pair of log-sink
states — one after `EnableLog`, one after `DisableLog` — the returned
result (value and error) is identical: the toggle changes only the
emitted diagnostic lines, never the data returned to the caller. -/
theorem c8_log_toggle_pure_diagnostics :
    ∀ (s : Session) (env : Env) (st1 st2 : Bool),
      (∀ (wid : String) (ter : TimeEntryRequest),
        (s.startTimeEntry env (EnableLog st1) wid ter).1 =
          (s.startTimeEntry env (DisableLog st2) wid ter).1)
      ∧ ((s.getAccount env (EnableLog st1)).1 = (s.getAccount env (DisableLog st2)).1)
      ∧ (∀ wid eid : String,
        (s.getTimeEntry env (EnableLog st1) wid eid).1 =
          (s.getTimeEntry env (DisableLog st2) wid eid).1)
      ∧ (∀ wid eid : String,
        (s.deleteTimeEntry env (EnableLog st1) wid eid).1 =
          (s.deleteTimeEntry env (DisableLog st2) wid eid).1)
      ∧ (∀ (timer : TimeEntry) (d : Bool),
        (s.continueTimeEntry env (EnableLog st1) timer d).1 =
          (s.continueTimeEntry env (DisableLog st2) timer d).1)
      ∧ (∀ wid uid : String,
        (s.stopTimeEntry env (EnableLog st1) wid uid).1 =
          (s.stopTimeEntry env (DisableLog st2) wid uid).1)
      ∧ (∀ wid : String,
        (s.getProjects env (EnableLog st1) wid).1 =
          (s.getProjects env (DisableLog st2) wid).1) := by
  intro s env st1 st2
  exact ⟨fun wid ter => startTimeEntry_fst s env wid ter _ _,
    getAccount_fst s env _ _,
    fun wid eid => getTimeEntry_fst s env wid eid _ _,
    fun wid eid => deleteTimeEntry_fst s env wid eid _ _,
    fun timer d => continueTimeEntry_fst s env timer d _ _,
    fun wid uid => stopTimeEntry_fst s env wid uid _ _,
    fun wid => getProjects_fst s env wid _ _⟩


/-- Witness for C1 at concrete inputs. -/
theorem c1_witness :
    baseEnv.marshalTER (stopSpecRequest baseEnv) = Except.ok "payload"
    ∧ baseEnv.parseURL (ClockifyAPI ++ stopTimeEntryPath "w" "u") = true
    ∧ ((OpenSession "tok").stopTimeEntry baseEnv false "w" "u").1 =
        .value (requestTimeEntryL baseEnv false
          (handleResponse (baseEnv.transport
            { method := "PATCH", url := ClockifyAPI ++ stopTimeEntryPath "w" "u"
              headers := requestHeaders (OpenSession "tok").APIToken, body := some "payload" })).1
          (handleResponse (baseEnv.transport
            { method := "PATCH", url := ClockifyAPI ++ stopTimeEntryPath "w" "u"
              headers := requestHeaders (OpenSession "tok").APIToken, body := some "payload" })).2).1 :=
  ⟨rfl, rfl,
    (c1_stop_patch_literal_path "w" "u").2 (OpenSession "tok") baseEnv false "payload" rfl rfl⟩

/-- Witness for C2 at a concrete 404 response. -/
theorem c2_witness :
    env404.parseURL (ClockifyAPI ++ "/user") = true
    ∧ env404.transport
        { method := "GET", url := ClockifyAPI ++ "/user"
          headers := requestHeaders (OpenSession "tok").APIToken, body := none } =
        Except.ok resp404
    ∧ resp404.bodyReadErr = none
    ∧ (resp404.statusCode < 200 ∨ 400 ≤ resp404.statusCode)
    ∧ (∀ c ∈ resp404.status.data, c ≠ '%')
    ∧ (OpenSession "tok").request env404 "GET" (ClockifyAPI ++ "/user") none =
        .value (some resp404.body, some (.status resp404.status)) :=
  ⟨rfl, rfl, rfl, Or.inr (by decide), by decide,
    c2_status_error_and_no_decode.1 (OpenSession "tok") env404 "GET" (ClockifyAPI ++ "/user")
      none resp404 rfl rfl rfl (Or.inr (by decide)) (by decide)⟩

/-- Witness for C3 at a concrete source entry. -/
theorem c3_witness :
    baseEnv.marshalTER (continueSpecRequest baseEnv timerW) = Except.ok "payload"
    ∧ baseEnv.parseURL (ClockifyAPI ++ ("/workspaces/" ++ timerW.Wid ++ "/time-entries")) = true
    ∧ (continueSpecRequest baseEnv timerW).Pid = timerW.Pid
    ∧ ((OpenSession "tok").continueTimeEntry baseEnv false timerW true).1 =
        .value (requestTimeEntryL baseEnv false
          (handleResponse (baseEnv.transport
            { method := "POST", url := ClockifyAPI ++ ("/workspaces/" ++ timerW.Wid ++ "/time-entries")
              headers := requestHeaders (OpenSession "tok").APIToken, body := some "payload" })).1
          (handleResponse (baseEnv.transport
            { method := "POST", url := ClockifyAPI ++ ("/workspaces/" ++ timerW.Wid ++ "/time-entries")
              headers := requestHeaders (OpenSession "tok").APIToken, body := some "payload" })).2).1 :=
  ⟨rfl, rfl,
    (c3_continue_builds_and_posts (OpenSession "tok") baseEnv false timerW true "payload"
      rfl rfl).1.2.1,
    (c3_continue_builds_and_posts (OpenSession "tok") baseEnv false timerW true "payload"
      rfl rfl).2⟩

/-- Witness for C4 at a concrete token and URL. -/
theorem c4_witness :
    baseEnv.parseURL (ClockifyAPI ++ "/user") = true
    ∧ ("Content-Type", "application/json") ∈ requestHeaders "tok"
    ∧ (("X-Api-Key", "tok") ∈ requestHeaders "tok" ↔ "tok" ≠ "" ∧ "tok" = "tok")
    ∧ (OpenSession "tok").request baseEnv "GET" (ClockifyAPI ++ "/user") none =
        .value (handleResponse (baseEnv.transport
          { method := "GET", url := ClockifyAPI ++ "/user"
            headers := requestHeaders (OpenSession "tok").APIToken, body := none })) :=
  ⟨rfl, (c4_json_and_api_key_headers.1 "tok").1,
    (c4_json_and_api_key_headers.1 "tok").2 "tok",
    c4_json_and_api_key_headers.2 (OpenSession "tok") baseEnv "GET" (ClockifyAPI ++ "/user")
      none rfl⟩

/-- Witness for C5 at a concrete two-entry map. -/
theorem c5_witness :
    (([("b", "2"), ("a", "1 x")] : Params).map Prod.fst).Nodup
    ∧ ("a", "1 x") ∈ ([("b", "2"), ("a", "1 x")] : Params)
    ∧ (queryEscape "a" ++ "=" ++ queryEscape "1 x") ∈
        encodedPairs ([("b", "2"), ("a", "1 x")] : Params)
    ∧ (sortedKeys ([("b", "2"), ("a", "1 x")] : Params)).count "a" = 1 :=
  ⟨by decide, by decide,
    (c5_get_query_url.2.2 [("b", "2"), ("a", "1 x")] "a" "1 x" (by decide) (by decide)).1,
    (c5_get_query_url.2.2 [("b", "2"), ("a", "1 x")] "a" "1 x" (by decide) (by decide)).2⟩

/-- Witness for C6 at a concrete 200 response with an undecodable body. -/
theorem c6_witness :
    envBadJson.parseURL (ClockifyAPI ++ "/user") = true
    ∧ envBadJson.transport
        { method := "GET", url := ClockifyAPI ++ "/user"
          headers := requestHeaders (OpenSession "tok").APIToken, body := none } =
        Except.ok resp200
    ∧ resp200.bodyReadErr = none
    ∧ (200 ≤ resp200.statusCode ∧ resp200.statusCode < 400)
    ∧ (envBadJson.unmarshalAccount resp200.body Account.zero).2 = some "invalid character"
    ∧ ((OpenSession "tok").getAccount envBadJson false).1 =
        .value ((envBadJson.unmarshalAccount resp200.body Account.zero).1,
          some (.decode "invalid character")) :=
  ⟨rfl, rfl, rfl, ⟨by decide, by decide⟩, rfl,
    c6_decode_error_not_silent.2 (OpenSession "tok") envBadJson false resp200
      "invalid character" rfl rfl rfl (by decide) (by decide) rfl⟩

/-- Witness for C10 at two iteration orders of a concrete map. -/
theorem c10_witness :
    ([("b", "2"), ("a", "1")] : Params).Perm ([("a", "1"), ("b", "2")] : Params)
    ∧ (([("b", "2"), ("a", "1")] : Params).map Prod.fst).Nodup
    ∧ urlValuesEncode ([("b", "2"), ("a", "1")] : Params) =
        urlValuesEncode ([("a", "1"), ("b", "2")] : Params)
    ∧ (OpenSession "tok").get baseEnv false "B" "/p" (some [("b", "2"), ("a", "1")]) =
        (OpenSession "tok").get baseEnv false "B" "/p" (some [("a", "1"), ("b", "2")]) :=
  ⟨by decide, by decide,
    (c10_query_encoding_deterministic [("b", "2"), ("a", "1")] [("a", "1"), ("b", "2")]
      (by decide) (by decide)).1,
    (c10_query_encoding_deterministic [("b", "2"), ("a", "1")] [("a", "1"), ("b", "2")]
      (by decide) (by decide)).2.2 (OpenSession "tok") baseEnv false "B" "/p"⟩

end Clockify
